import Mathlib

/-!
# Verification of the collaborative PDF editor core

Shallow embedding of the two core components of the `vite-app` repository:

* the **PDF Mutation Engine** (`modifyPdf` in `src/components/pdf-editor.tsx`,
  second document of the file): a pure transform from (document pages,
  ordered annotation list, deleted-page index list) to new document pages;
* the **Session Coordinator** (`PDFSession` in the worker source,
  `src/unnamed/part_001`, the complete variant of `worker/pdf-session.ts`):
  connection registration, message fan-out and the AI-summary job.

Conventions of the embedding:

* JS numbers used as coordinates are modelled as `ℚ`; the 1-based `page`
  field of an annotation is an integer-valued number, modelled as `ℤ`
  (so that `page - 1` can be negative, as in JS).
* A pdf-lib page is modelled as its height plus the ordered list of draw
  operations performed on it (`PageData`); a document is a `List PageData`.
* pdf-lib draw calls become `DrawOp` constructors recording exactly the
  arguments the source passes; an absent `opacity` argument is `none`
  (pdf-lib's default, fully opaque).
* The image-embedding collaborator (`atob` + `embedPng`/`embedJpg`, an
  assumed external capability per the design's non-goals) is a parameter
  `E : String → Option EmbeddedImage`; `none` models the thrown exception
  that the source catches and turns into a skip.
* A thrown JS exception that propagates out of `modifyPdf` (e.g. calling
  `getSize()` on the `undefined` result of an out-of-bounds page lookup)
  is modelled by `Option.none`.
-/

/-! ## Mutation-engine data model (from `pdf-editor.tsx`) -/

/-- The `type` discriminator of `PdfAnnotation` in `pdf-editor.tsx`:
`"text" | "rect" | "image" | "path" | "text-replace"`. -/
inductive AnnType where
  | text
  | rect
  | image
  | path
  | textReplace
deriving DecidableEq

/-- The `originalTextRect` field of a text-replace annotation. -/
structure RegionRect where
  x : ℚ
  y : ℚ
  width : ℚ
  height : ℚ
deriving DecidableEq

/-- The `PdfAnnotation` interface of `pdf-editor.tsx` (editor side).
Optional TS fields become `Option`. -/
structure PdfAnn where
  id : String
  type : AnnType
  page : ℤ
  x : ℚ
  y : ℚ
  text : Option String
  fontSize : Option ℚ
  width : Option ℚ
  height : Option ℚ
  image : Option String
  path : Option String
  strokeWidth : Option ℚ
  color : Option String
  originalTextRect : Option RegionRect
deriving DecidableEq

/-- An RGB colour as produced by pdf-lib's `rgb`. -/
structure Color where
  r : ℚ
  g : ℚ
  b : ℚ
deriving DecidableEq

/-- The fonts embedded by `modifyPdf` (Helvetica and Helvetica-Bold). -/
inductive Font where
  | helvetica
  | helveticaBold
deriving DecidableEq

/-- Result of the external image-embedding capability (pdf-lib `PDFImage`). -/
structure EmbeddedImage where
  bytes : List ℕ
deriving DecidableEq

/-- One pdf-lib draw call, recording the arguments the source passes.
`drawRectangle`'s `opacity` is `none` when the source omits the argument
(pdf-lib then uses its fully opaque default). -/
inductive DrawOp where
  | drawText (text : String) (x y size : ℚ) (font : Font) (color : Color)
  | drawRectangle (x y width height : ℚ) (color : Color) (opacity : Option ℚ)
  | drawImage (img : EmbeddedImage) (x y width height : ℚ)
  | drawSvgPath (path : String) (x y : ℚ) (borderColor : Color) (borderWidth : ℚ)
deriving DecidableEq

/-- A pdf-lib page: its height (from `page.getSize()`) and the ordered list
of draw operations performed on it. -/
structure PageData where
  height : ℚ
  ops : List DrawOp
deriving DecidableEq

/-- Hex digit value, as `parseInt(·, 16)` accepts. -/
def hexVal (c : Char) : Option ℕ :=
  if '0' ≤ c ∧ c ≤ '9' then some (c.toNat - 48)
  else if 'a' ≤ c ∧ c ≤ 'f' then some (c.toNat - 87)
  else if 'A' ≤ c ∧ c ≤ 'F' then some (c.toNat - 55)
  else none

/-- `parseInt(s, 16)` on a two-character slice: parses the leading hex
digits, `none` for `NaN` (no leading hex digit). -/
def parseHex2 (cs : List Char) : Option ℕ :=
  match cs with
  | [] => none
  | c :: rest =>
    match hexVal c with
    | none => none
    | some v =>
      match rest with
      | [] => some v
      | d :: _ =>
        match hexVal d with
        | none => some v
        | some w => some (16 * v + w)

/-- `hex.slice(a, b)` for the two-character slices used by `parseColor`. -/
def sliceChars (s : String) (a b : ℕ) : List Char :=
  (s.toList.drop a).take (b - a)

/-- One colour component of `parseColor`: `parseInt(hex.slice(a,b),16)/255`,
with the source's `isNaN(·) ? 0` fallback. -/
def hexComp (s : String) (a b : ℕ) : ℚ :=
  match parseHex2 (sliceChars s a b) with
  | none => 0
  | some v => (v : ℚ) / 255

/-- The `parseColor` helper of `modifyPdf`. -/
def parseColor (hex : String) : Color :=
  ⟨hexComp hex 1 3, hexComp hex 3 5, hexComp hex 5 7⟩

/-- JS `o || d` for an optional numeric field (`0` and absent are falsy). -/
def numOr (o : Option ℚ) (d : ℚ) : ℚ :=
  match o with
  | some v => if v = 0 then d else v
  | none => d

/-- JS `o || d` for an optional string field (`""` and absent are falsy). -/
def strOr (o : Option String) (d : String) : String :=
  match o with
  | some s => if s = "" then d else s
  | none => d

/-- Append one draw operation to a page. -/
def addOp (p : PageData) (op : DrawOp) : PageData :=
  ⟨p.height, p.ops ++ [op]⟩

/-- The per-annotation drawing body of `modifyPdf` (after the page lookup),
one branch per `ann.type`, mirroring the source's mutually exclusive
`if` chain.  JS truthiness of the guarding fields: a string field is truthy
iff present and nonempty, a numeric field iff present and nonzero, the
`originalTextRect` object iff present.  `E` is the image-embedding
collaborator; `E img = none` models the caught embedding exception, which
skips the annotation. -/
def drawAnn (E : String → Option EmbeddedImage) (page : PageData) (ann : PdfAnn) : PageData :=
  match ann.type with
  | AnnType.textReplace =>
    match ann.originalTextRect, ann.text with
    | some r, some t =>
      if t = "" then page
      else
        addOp
          (addOp page (DrawOp.drawRectangle r.x r.y r.width r.height ⟨1, 1, 1⟩ none))
          (DrawOp.drawText t ann.x ann.y (numOr ann.fontSize 12) Font.helvetica
            (parseColor (strOr ann.color "#000000")))
    | _, _ => page
  | AnnType.text =>
    match ann.text with
    | some t =>
      if t = "" then page
      else
        addOp page
          (DrawOp.drawText t ann.x (page.height - ann.y) (numOr ann.fontSize 12)
            Font.helvetica (parseColor (strOr ann.color "#000000")))
    | none => page
  | AnnType.rect =>
    match ann.width, ann.height with
    | some w, some h =>
      if w = 0 ∨ h = 0 then page
      else
        addOp page
          (DrawOp.drawRectangle ann.x (page.height - ann.y - h) w h
            (parseColor (strOr ann.color "#ffff00")) (some (2 / 5)))
    | _, _ => page
  | AnnType.image =>
    match ann.image, ann.width, ann.height with
    | some img, some w, some h =>
      if img = "" ∨ w = 0 ∨ h = 0 then page
      else
        match E img with
        | some e => addOp page (DrawOp.drawImage e ann.x (page.height - ann.y - h) w h)
        | none => page
    | _, _, _ => page
  | AnnType.path =>
    match ann.path with
    | some p =>
      if p = "" then page
      else
        addOp page
          (DrawOp.drawSvgPath p ann.x (page.height - ann.y)
            (parseColor (strOr ann.color "#000000")) (numOr ann.strokeWidth 2))
    | none => page

/-- `deletedPageIndices.includes(ann.page - 1)`: the deleted-page list holds
0-based page indices (natural numbers); the probe is the integer
`ann.page - 1`. -/
def deletedHit (deleted : List ℕ) (i : ℤ) : Bool :=
  deleted.any (fun d => (d : ℤ) == i)

/-- The source's skip guard:
`ann.page > pages.length || deletedPageIndices.includes(ann.page - 1)`. -/
def skipAnn (pageCount : ℕ) (deleted : List ℕ) (ann : PdfAnn) : Bool :=
  decide (ann.page > (pageCount : ℤ)) || deletedHit deleted (ann.page - 1)

/-- `pages[i]` for an integer index: `none` models JS `undefined`. -/
def pageLookup (pages : List PageData) (i : ℤ) : Option PageData :=
  if 0 ≤ i then pages.get? i.toNat else none

/-- One iteration of the annotation loop of `modifyPdf`: skip if the guard
holds, otherwise look up `pages[ann.page - 1]` and draw on it.  A `none`
lookup (`ann.page < 1`) makes `page.getSize()` throw in JS; the thrown
exception is modelled by `none`. -/
def annStep (E : String → Option EmbeddedImage) (pages : List PageData)
    (deleted : List ℕ) (ann : PdfAnn) : Option (List PageData) :=
  if skipAnn pages.length deleted ann then some pages
  else
    match pageLookup pages (ann.page - 1) with
    | none => none
    | some pg => some (pages.set (ann.page - 1).toNat (drawAnn E pg ann))

/-- The annotation loop of `modifyPdf` over the whole list; a thrown
exception aborts the loop (and the whole mutation). -/
def applyAnns (E : String → Option EmbeddedImage) (pages : List PageData)
    (deleted : List ℕ) : List PdfAnn → Option (List PageData)
  | [] => some pages
  | a :: rest =>
    match annStep E pages deleted a with
    | none => none
    | some pages' => applyAnns E pages' deleted rest

instance : DecidableRel (fun a b : ℕ => b ≤ a) := fun a b => Nat.decLe b a

instance : IsTotal ℕ (fun a b : ℕ => b ≤ a) := ⟨fun a b => le_total b a⟩

instance : IsTrans ℕ (fun a b : ℕ => b ≤ a) := ⟨fun _ _ _ h1 h2 => le_trans h2 h1⟩

/-- `[...deletedPageIndices].sort((a, b) => b - a)`: the deleted-page
indices in descending order. -/
def sortDescending (l : List ℕ) : List ℕ :=
  List.insertionSort (fun a b : ℕ => b ≤ a) l

/-- The page-deletion loop of `modifyPdf`: walk the descending-sorted
indices, removing each one that is below the *current* page count
(`if (idx < pdfDoc.getPageCount()) pdfDoc.removePage(idx)`). -/
def deletePagesStep {α : Type} (pages : List α) (deletedPageIndices : List ℕ) : List α :=
  (sortDescending deletedPageIndices).foldl
    (fun ps idx => if idx < ps.length then ps.eraseIdx idx else ps) pages

/-- `modifyPdf(file, annotations, deletedPageIndices)` from
`pdf-editor.tsx`: draw every annotation that survives the guard, then
delete pages; `none` models a thrown exception. -/
def modifyPdf (E : String → Option EmbeddedImage) (doc : List PageData)
    (anns : List PdfAnn) (deletedPageIndices : List ℕ) : Option (List PageData) :=
  match applyAnns E doc deletedPageIndices anns with
  | none => none
  | some pages => some (deletePagesStep pages deletedPageIndices)

/-- Reference semantics for page deletion: keep exactly the pages whose
0-based original index is not in the deleted list (`i` is the index of the
head of the remaining list). -/
def keepNotDeleted {α : Type} (ds : List ℕ) : ℕ → List α → List α
  | _, [] => []
  | i, p :: ps =>
    if i ∈ ds then keepNotDeleted ds (i + 1) ps
    else p :: keepNotDeleted ds (i + 1) ps


/-! ## Session Coordinator (from the worker `PDFSession` Durable Object) -/

/-- The worker-side `type` discriminator: `"text" | "rect"`. -/
inductive WireType where
  | text
  | rect
deriving DecidableEq

/-- The worker-side annotation record (`PdfAnnotation` in the worker
source): `type` is `"text" | "rect"`, the rest mirrors the interface. -/
structure WireAnn where
  id : String
  type : WireType
  page : ℚ
  x : ℚ
  y : ℚ
  text : Option String
  width : Option ℚ
  height : Option ℚ
  color : Option String
deriving DecidableEq

/-- The real-time protocol messages (`WSMessage` in the worker source, plus
`sync-deleted-pages`, which the editor client emits on the same channel and
the Coordinator ignores). -/
inductive WSMsg where
  | syncAnnotations (anns : List WireAnn)
  | syncDeletedPages (deletedPages : List ℕ)
  | cursorMove (x y page : ℚ) (clientId : String)
  | aiSummarize
  | aiStatus (status : String)
  | aiResult (text : String)
deriving DecidableEq

/-- Is the message a `sync-deleted-pages` message? -/
def isSyncDeletedPages : WSMsg → Bool
  | WSMsg.syncDeletedPages _ => true
  | _ => false

/-- The in-memory state of one `PDFSession` Durable Object: the set of
connected WebSockets (as a list in insertion order, the iteration order of
a JS `Set`) and the authoritative annotation list.  The class has no
deleted-pages field. -/
structure SessionState where
  sessions : List ℕ
  annotations : List WireAnn
deriving DecidableEq

/-- `this.sessions.add(ws)`: add to the `Set` if absent. -/
def addClient (l : List ℕ) (c : ℕ) : List ℕ :=
  if c ∈ l then l else l ++ [c]

/-- `handleWebSocket`: register the new client and immediately send it
`{ type: "sync-annotations", annotations: this.annotations }`.  Returns the
new state and the messages sent, as (recipient, message) pairs in order. -/
def handleWebSocket (st : SessionState) (client : ℕ) :
    SessionState × List (ℕ × WSMsg) :=
  (⟨addClient st.sessions client, st.annotations⟩,
    [(client, WSMsg.syncAnnotations st.annotations)])

/-- `broadcast(msg, source?)`: iterate over the session set, skip `source`,
`try { session.send(msg) } catch { this.sessions.delete(session) }`.
`failing c = true` means `c.send` throws (the client disconnected under the
broadcast).  Returns the session set after the loop and the deliveries that
succeeded, in order. -/
def broadcast (failing : ℕ → Bool) (msg : WSMsg) (source : Option ℕ) :
    List ℕ → List ℕ × List (ℕ × WSMsg)
  | [] => ([], [])
  | s :: rest =>
    let r := broadcast failing msg source rest
    if source == some s then (s :: r.1, r.2)
    else if failing s then (r.1, r.2)
    else (s :: r.1, (s, msg) :: r.2)

/-- `webSocketMessage(ws, message)`: the Coordinator's message loop body.
`sync-annotations` replaces the authoritative list and re-broadcasts the
raw message to the others; `cursor-move` only re-broadcasts; `ai-summarize`
spawns the background summary job (`ctx.waitUntil`, flagged in the third
component); every other message kind falls through the `switch` and is
ignored.  Returns (new state, deliveries, job spawned). -/
def webSocketMessage (failing : ℕ → Bool) (st : SessionState) (ws : ℕ)
    (m : WSMsg) : SessionState × List (ℕ × WSMsg) × Bool :=
  match m with
  | WSMsg.syncAnnotations anns =>
    let r := broadcast failing m (some ws) st.sessions
    (⟨r.1, anns⟩, r.2, false)
  | WSMsg.cursorMove _ _ _ _ =>
    let r := broadcast failing m (some ws) st.sessions
    (⟨r.1, st.annotations⟩, r.2, false)
  | WSMsg.aiSummarize => (st, [], true)
  | _ => (st, [], false)

/-- `webSocketClose(ws)`: drop the socket from the session set. -/
def webSocketClose (st : SessionState) (ws : ℕ) : SessionState :=
  ⟨st.sessions.filter (fun s => !(s == ws)), st.annotations⟩

/-- Raw bytes of the stored PDF object. -/
abbrev PdfBytes := List ℕ

/-- `safeText.slice(0, 12000)`: truncation before inference. -/
def truncateText (t : String) : String :=
  t.take 12000

/-- `runAiSummary(requestorWs)`: the background summary job.  External
collaborators are parameters: `getObject` is the result of
`PDF_BUCKET.get` (`none` = no object), `extract` is the
unpdf `getDocumentProxy` + `extractText` step, `aiRun` is the
`env.AI.run` call; `Except.error` models a thrown exception, caught by the
source's `try`/`catch`.  The job sends `ai-status "thinking"` to the
requestor first; on success it broadcasts the `ai-result` to the whole
session set (no `source` argument) and then sends it to the requestor; on
a missing object or a caught exception it sends the corresponding
`ai-result` error text to the requestor only.  Returns the state after the
job and the deliveries in order. -/
def runAiSummary (getObject : Option PdfBytes)
    (extract : PdfBytes → Except String String)
    (aiRun : String → Except String String) (failing : ℕ → Bool)
    (st : SessionState) (requestor : ℕ) :
    SessionState × List (ℕ × WSMsg) :=
  let thinking := (requestor, WSMsg.aiStatus "thinking")
  match getObject with
  | none =>
    (st, [thinking, (requestor, WSMsg.aiResult "Error: No PDF file found in session.")])
  | some bytes =>
    match extract bytes with
    | Except.error _ =>
      (st, [thinking, (requestor, WSMsg.aiResult "Error processing document analysis.")])
    | Except.ok text =>
      match aiRun (truncateText text) with
      | Except.error _ =>
        (st, [thinking, (requestor, WSMsg.aiResult "Error processing document analysis.")])
      | Except.ok summary =>
        let r := broadcast failing (WSMsg.aiResult summary) none st.sessions
        (⟨r.1, st.annotations⟩,
          thinking :: r.2 ++ [(requestor, WSMsg.aiResult summary)])


/-! ## Concrete sample inputs used by witnesses and counterexamples -/

/-- Embedding collaborator that accepts every payload. -/
def embedOk : String → Option EmbeddedImage := fun _ => some ⟨[]⟩

/-- Embedding collaborator that rejects every payload (caught exception). -/
def embedNone : String → Option EmbeddedImage := fun _ => none

/-- A blank page of US-letter height 792. -/
def page792 : PageData := ⟨792, []⟩

/-- A text annotation on page 1 at viewer position (100, 50). -/
def annText100 : PdfAnn :=
  ⟨"t1", AnnType.text, 1, 100, 50, some "Hello", none, none, none, none, none, none, none, none⟩

/-- A rect annotation on page 1 at (10, 20), 40 wide, 30 high. -/
def annRect1 : PdfAnn :=
  ⟨"r1", AnnType.rect, 1, 10, 20, none, none, some 40, some 30, none, none, none, none, none⟩

/-- An image annotation on page 1 at (10, 20), 40 wide, 30 high. -/
def annImage1 : PdfAnn :=
  ⟨"i1", AnnType.image, 1, 10, 20, none, none, some 40, some 30,
    some "data:image/png;base64,AAAA", none, none, none, none⟩

/-- A text-replace annotation on page 1 with mask region (5, 6, 70, 8). -/
def annReplace1 : PdfAnn :=
  ⟨"x1", AnnType.textReplace, 1, 30, 40, some "new", some 14, none, none, none, none, none, none,
    some ⟨5, 6, 70, 8⟩⟩

/-- A text annotation whose `page` is 0 (no such page: pages are 1-based). -/
def annPage0 : PdfAnn :=
  ⟨"z0", AnnType.text, 0, 1, 2, some "x", none, none, none, none, none, none, none, none⟩

/-- A text annotation whose `page` is 5 (beyond a 1-page document). -/
def annPage5 : PdfAnn :=
  ⟨"z5", AnnType.text, 5, 1, 2, some "x", none, none, none, none, none, none, none, none⟩

/-- A 3-page document with distinct page heights. -/
def threePages : List PageData := [⟨100, []⟩, ⟨200, []⟩, ⟨300, []⟩]

/-! ## Lemmas about the page-deletion loop -/

theorem keepNotDeleted_all_lt {α : Type} (ds : List ℕ) :
    ∀ (pages : List α) (i : ℕ), (∀ d ∈ ds, d < i) →
      keepNotDeleted ds i pages = pages := by
  intro pages
  induction pages with
  | nil => intro i _; rfl
  | cons p ps ih =>
    intro i h
    have hmem : i ∉ ds := fun hm => absurd (h i hm) (lt_irrefl i)
    simp only [keepNotDeleted, if_neg hmem]
    rw [ih (i + 1) (fun d hd => Nat.lt_succ_of_lt (h d hd))]

theorem keepNotDeleted_cons_out {α : Type} (d : ℕ) (ds : List ℕ) :
    ∀ (pages : List α) (i : ℕ), (d < i ∨ i + pages.length ≤ d) →
      keepNotDeleted (d :: ds) i pages = keepNotDeleted ds i pages := by
  intro pages
  induction pages with
  | nil => intro i _; rfl
  | cons p ps ih =>
    intro i h
    have hne : i ≠ d := by
      rcases h with h | h
      · omega
      · simp only [List.length_cons] at h; omega
    have hrec : d < i + 1 ∨ (i + 1) + ps.length ≤ d := by
      rcases h with h | h
      · exact Or.inl (by omega)
      · simp only [List.length_cons] at h; omega
    have hcond : (i ∈ d :: ds) = (i ∈ ds) := by
      simp [List.mem_cons, hne]
    simp only [keepNotDeleted, hcond, ih (i + 1) hrec]

theorem keepNotDeleted_eraseIdx {α : Type} (ds : List ℕ) :
    ∀ (pages : List α) (s d : ℕ), (∀ e ∈ ds, e < s + d) → d < pages.length →
      keepNotDeleted ds s (pages.eraseIdx d) = keepNotDeleted ((s + d) :: ds) s pages := by
  intro pages
  induction pages with
  | nil => intro s d _ hd; simp at hd
  | cons p ps ih =>
    intro s d h hd
    cases d with
    | zero =>
      have h1 : keepNotDeleted ds s ps = ps :=
        keepNotDeleted_all_lt ds ps s (fun e he => by have := h e he; omega)
      have h2 : keepNotDeleted ((s + 0) :: ds) (s + 1) ps = ps := by
        apply keepNotDeleted_all_lt
        intro e he
        rcases List.mem_cons.mp he with he | he
        · omega
        · have := h e he; omega
      have hmem : s ∈ (s + 0) :: ds := by simp
      simp only [List.eraseIdx_cons_zero, keepNotDeleted, if_pos hmem, h1, h2]
    | succ d' =>
      have hne : s ≠ s + (d' + 1) := by omega
      have ih' := ih (s + 1) d' (fun e he => by have := h e he; omega)
        (by simpa using hd)
      have e1 : s + 1 + d' = s + (d' + 1) := by omega
      rw [e1] at ih'
      have hcond : (s ∈ (s + (d' + 1)) :: ds) = (s ∈ ds) := by
        simp [List.mem_cons, hne]
      simp only [List.eraseIdx_cons_succ, keepNotDeleted, hcond, ih']

theorem keepNotDeleted_congr {α : Type} (ds1 ds2 : List ℕ)
    (h : ∀ x, x ∈ ds1 ↔ x ∈ ds2) :
    ∀ (pages : List α) (i : ℕ), keepNotDeleted ds1 i pages = keepNotDeleted ds2 i pages := by
  intro pages
  induction pages with
  | nil => intro i; rfl
  | cons p ps ih =>
    intro i
    have hcond : (i ∈ ds1) = (i ∈ ds2) := propext (h i)
    simp only [keepNotDeleted, hcond, ih (i + 1)]

theorem foldl_erase_of_pairwise {α : Type} :
    ∀ (sorted : List ℕ) (pages : List α),
      sorted.Pairwise (fun a b => a > b) →
      sorted.foldl (fun ps idx => if idx < ps.length then ps.eraseIdx idx else ps) pages
        = keepNotDeleted sorted 0 pages := by
  intro sorted
  induction sorted with
  | nil =>
    intro pages _
    rw [List.foldl_nil, keepNotDeleted_all_lt [] pages 0 (by simp)]
  | cons d rest ih =>
    intro pages hp
    have hd : ∀ e ∈ rest, d > e := (List.pairwise_cons.mp hp).1
    have hrest := (List.pairwise_cons.mp hp).2
    rw [List.foldl_cons]
    by_cases hlt : d < pages.length
    · rw [if_pos hlt, ih _ hrest,
        keepNotDeleted_eraseIdx rest pages 0 d (fun e he => by have := hd e he; omega) hlt]
      rw [Nat.zero_add]
    · rw [if_neg hlt, ih _ hrest,
        ← keepNotDeleted_cons_out d rest pages 0 (Or.inr (by omega))]

theorem sortDescending_pairwise_gt (l : List ℕ) (h : l.Nodup) :
    (sortDescending l).Pairwise (fun a b => a > b) := by
  have hs : (sortDescending l).Pairwise (fun a b : ℕ => b ≤ a) :=
    List.sorted_insertionSort (fun a b : ℕ => b ≤ a) l
  have hn : (sortDescending l).Nodup :=
    (List.perm_insertionSort (fun a b : ℕ => b ≤ a) l).nodup_iff.mpr h
  have hand := List.Pairwise.and hs hn
  exact hand.imp (fun hab => lt_of_le_of_ne hab.1 (Ne.symm hab.2))

theorem deletePagesStep_eq_keepNotDeleted {α : Type} (pages : List α)
    (ds : List ℕ) (h : ds.Nodup) :
    deletePagesStep pages ds = keepNotDeleted ds 0 pages := by
  unfold deletePagesStep
  rw [foldl_erase_of_pairwise (sortDescending ds) pages (sortDescending_pairwise_gt ds h)]
  exact keepNotDeleted_congr (sortDescending ds) ds
    (fun x => (List.perm_insertionSort (fun a b : ℕ => b ≤ a) ds).mem_iff) pages 0

/-! ## Lemmas about the annotation loop -/

theorem annStep_of_skip (E : String → Option EmbeddedImage) (pages : List PageData)
    (deleted : List ℕ) (ann : PdfAnn)
    (h : skipAnn pages.length deleted ann = true) :
    annStep E pages deleted ann = some pages := by
  unfold annStep
  rw [if_pos h]

theorem annStep_length (E : String → Option EmbeddedImage) (pages : List PageData)
    (deleted : List ℕ) (ann : PdfAnn) (pages' : List PageData)
    (h : annStep E pages deleted ann = some pages') :
    pages'.length = pages.length := by
  unfold annStep at h
  by_cases hs : skipAnn pages.length deleted ann = true
  · rw [if_pos hs] at h
    cases h
    rfl
  · rw [if_neg hs] at h
    cases hl : pageLookup pages (ann.page - 1) with
    | none => rw [hl] at h; cases h
    | some pg =>
      rw [hl] at h
      cases h
      exact List.length_set pages _ _

theorem applyAnns_skip_middle (E : String → Option EmbeddedImage) (deleted : List ℕ)
    (a : PdfAnn) (n : ℕ)
    (ha : a.page > (n : ℤ) ∨ deletedHit deleted (a.page - 1) = true) :
    ∀ (l1 l2 : List PdfAnn) (pages : List PageData), pages.length = n →
      applyAnns E pages deleted (l1 ++ a :: l2) = applyAnns E pages deleted (l1 ++ l2) := by
  intro l1
  induction l1 with
  | nil =>
    intro l2 pages hlen
    have hskip : skipAnn pages.length deleted a = true := by
      unfold skipAnn
      rcases ha with h | h
      · have : decide (a.page > (pages.length : ℤ)) = true := by
          rw [hlen]; exact decide_eq_true h
        rw [this, Bool.true_or]
      · rw [h, Bool.or_true]
    simp only [List.nil_append, applyAnns, annStep_of_skip E pages deleted a hskip]
  | cons b l1' ih =>
    intro l2 pages hlen
    simp only [List.cons_append, applyAnns]
    cases hb : annStep E pages deleted b with
    | none => rfl
    | some pages' =>
      exact ih l2 pages' ((annStep_length E pages deleted b pages' hb).trans hlen)

theorem annStep_oob (E : String → Option EmbeddedImage) (pages : List PageData)
    (deleted : List ℕ) (ann : PdfAnn) (h1 : ann.page < 1)
    (h2 : deletedHit deleted (ann.page - 1) = false) :
    annStep E pages deleted ann = none := by
  have hskip : skipAnn pages.length deleted ann = false := by
    unfold skipAnn
    rw [h2, Bool.or_false]
    exact decide_eq_false (by omega)
  unfold annStep
  rw [if_neg (by rw [hskip]; exact Bool.false_ne_true)]
  unfold pageLookup
  rw [if_neg (by omega)]

theorem annStep_in_range (E : String → Option EmbeddedImage) (pages : List PageData)
    (deleted : List ℕ) (ann : PdfAnn) (h1 : 1 ≤ ann.page)
    (h2 : ann.page ≤ (pages.length : ℤ)) :
    (annStep E pages deleted ann).isSome = true := by
  unfold annStep
  by_cases hs : skipAnn pages.length deleted ann = true
  · rw [if_pos hs]; rfl
  · rw [if_neg hs]
    have h0 : 0 ≤ ann.page - 1 := by omega
    have hlt : (ann.page - 1).toNat < pages.length := by omega
    unfold pageLookup
    rw [if_pos h0]
    cases hg : pages.get? (ann.page - 1).toNat with
    | none =>
      have := List.get?_eq_none.mp hg
      omega
    | some pg => rfl

/-! ## Lemmas about broadcast -/

theorem broadcast_spec (failing : ℕ → Bool) (msg : WSMsg) (source : Option ℕ) :
    ∀ sessions : List ℕ,
      broadcast failing msg source sessions
        = (sessions.filter (fun s => source == some s || !failing s),
           (sessions.filter (fun s => !(source == some s) && !failing s)).map
             (fun s => (s, msg))) := by
  intro sessions
  induction sessions with
  | nil => rfl
  | cons s rest ih =>
    simp only [broadcast, ih, List.filter_cons]
    by_cases h1 : (source == some s) = true
    · simp [h1]
    · have h1' : (source == some s) = false := Bool.eq_false_iff.mpr h1
      by_cases h2 : failing s = true
      · simp [h1', h2]
      · have h2' : failing s = false := Bool.eq_false_iff.mpr h2
        simp [h1', h2']

/-! ## Claim theorems: Mutation Engine -/

/-- **C2** (confirmed): for every document and every duplicate-free
deleted-page index list, the deletion loop of `modifyPdf` removes exactly
the pages whose original 0-based index is listed, keeping the survivors in
order (the descending removal order means no removal shifts the index of a
not-yet-removed page) and silently skipping indices at or beyond the
current page count; in particular deleting `[0, 2, 4]` from a 3-page
document leaves exactly the original index-1 page. -/
theorem engine_deletes_pages_descending :
    (∀ {α : Type} (pages : List α) (ds : List ℕ), ds.Nodup →
      deletePagesStep pages ds = keepNotDeleted ds 0 pages)
    ∧ modifyPdf embedNone threePages [] [0, 2, 4] = some [⟨200, []⟩] := by
  constructor
  · intro α pages ds h
    exact deletePagesStep_eq_keepNotDeleted pages ds h
  · with_unfolding_all rfl

/-- Witness for `engine_deletes_pages_descending`: the duplicate-free list
`[0, 2, 4]` on the 3-page document. -/
theorem engine_deletes_pages_descending_witness :
    ([0, 2, 4] : List ℕ).Nodup
    ∧ deletePagesStep threePages [0, 2, 4] = keepNotDeleted [0, 2, 4] 0 threePages :=
  ⟨by decide, engine_deletes_pages_descending.1 threePages [0, 2, 4] (by decide)⟩

/-- **C3** (confirmed): a `Text` annotation with viewer-space position
`(x, y)` on a page of height `H` is drawn at document coordinates
`(x, H - y)`. -/
theorem text_drawn_at_flipped_y (E : String → Option EmbeddedImage) (pg : PageData)
    (ann : PdfAnn) (t : String) (h1 : ann.type = AnnType.text)
    (h2 : ann.text = some t) (h3 : t ≠ "") :
    drawAnn E pg ann
      = ⟨pg.height, pg.ops ++ [DrawOp.drawText t ann.x (pg.height - ann.y)
          (numOr ann.fontSize 12) Font.helvetica
          (parseColor (strOr ann.color "#000000"))]⟩ := by
  simp only [drawAnn, h1, h2, if_neg h3, addOp]

/-- Witness for `text_drawn_at_flipped_y`: the annotation at
`(x=100, y=50)` on a page of height `792` is drawn at `(100, 742)`. -/
theorem text_drawn_at_flipped_y_witness :
    drawAnn embedNone page792 annText100
      = ⟨792, [DrawOp.drawText "Hello" 100 742 12 Font.helvetica (parseColor "#000000")]⟩ :=
  (text_drawn_at_flipped_y embedNone page792 annText100 "Hello" rfl rfl (by decide)).trans
    (by with_unfolding_all rfl)

/-- **C4** (confirmed): a `Rect` annotation and an `Image` annotation with
viewer-space position `(x, y)` and height `h` on a page of height `H` are
drawn with their bottom-left corner at `(x, H - y - h)`. -/
theorem rect_image_drawn_at_flipped_bottom_left :
    (∀ (E : String → Option EmbeddedImage) (pg : PageData) (ann : PdfAnn) (w h : ℚ),
      ann.type = AnnType.rect → ann.width = some w → ann.height = some h →
      w ≠ 0 → h ≠ 0 →
      drawAnn E pg ann
        = ⟨pg.height, pg.ops ++ [DrawOp.drawRectangle ann.x (pg.height - ann.y - h) w h
            (parseColor (strOr ann.color "#ffff00")) (some (2 / 5))]⟩)
    ∧ (∀ (E : String → Option EmbeddedImage) (pg : PageData) (ann : PdfAnn)
        (w h : ℚ) (s : String) (img : EmbeddedImage),
      ann.type = AnnType.image → ann.image = some s → ann.width = some w →
      ann.height = some h → s ≠ "" → w ≠ 0 → h ≠ 0 → E s = some img →
      drawAnn E pg ann
        = ⟨pg.height, pg.ops ++ [DrawOp.drawImage img ann.x (pg.height - ann.y - h) w h]⟩) := by
  constructor
  · intro E pg ann w h h1 h2 h3 hw hh
    simp only [drawAnn, h1, h2, h3, if_neg (not_or.mpr ⟨hw, hh⟩), addOp]
  · intro E pg ann w h s img h1 h2 h3 h4 hs hw hh hE
    have hcond : ¬(s = "" ∨ w = 0 ∨ h = 0) := by
      intro hc
      rcases hc with hc | hc | hc
      · exact hs hc
      · exact hw hc
      · exact hh hc
    simp only [drawAnn, h1, h2, h3, h4, if_neg hcond, hE, addOp]

/-- Witness for `rect_image_drawn_at_flipped_bottom_left`: a rect and an
image at `(10, 20)` of height `30` on a page of height `792` are drawn
with bottom-left corner at `(10, 742)`. -/
theorem rect_image_drawn_at_flipped_bottom_left_witness :
    drawAnn embedOk page792 annRect1
      = ⟨792, [DrawOp.drawRectangle 10 742 40 30 (parseColor "#ffff00") (some (2 / 5))]⟩
    ∧ drawAnn embedOk page792 annImage1
      = ⟨792, [DrawOp.drawImage ⟨[]⟩ 10 742 40 30]⟩ :=
  ⟨(rect_image_drawn_at_flipped_bottom_left.1 embedOk page792 annRect1 40 30 rfl rfl rfl
      (by norm_num) (by norm_num)).trans (by with_unfolding_all rfl),
   (rect_image_drawn_at_flipped_bottom_left.2 embedOk page792 annImage1 40 30
      "data:image/png;base64,AAAA" ⟨[]⟩ rfl rfl rfl rfl (by decide) (by norm_num)
      (by norm_num) rfl).trans (by with_unfolding_all rfl)⟩

/-- **C5** (confirmed): an applied `TextReplace` annotation performs
exactly two draws in order: first the masking rectangle at
`originalRegion` (`originalTextRect`), white and with no `opacity`
argument, i.e. pdf-lib's fully opaque default, then the replacement text
at the caller-specified `(x, y)`. -/
theorem text_replace_mask_then_text (E : String → Option EmbeddedImage)
    (pg : PageData) (ann : PdfAnn) (r : RegionRect) (t : String)
    (h1 : ann.type = AnnType.textReplace) (h2 : ann.originalTextRect = some r)
    (h3 : ann.text = some t) (h4 : t ≠ "") :
    drawAnn E pg ann
      = ⟨pg.height, pg.ops
          ++ [DrawOp.drawRectangle r.x r.y r.width r.height ⟨1, 1, 1⟩ none,
              DrawOp.drawText t ann.x ann.y (numOr ann.fontSize 12) Font.helvetica
                (parseColor (strOr ann.color "#000000"))]⟩ := by
  simp only [drawAnn, h1, h2, h3, if_neg h4, addOp, List.append_assoc]
  rfl

/-- Witness for `text_replace_mask_then_text`. -/
theorem text_replace_mask_then_text_witness :
    drawAnn embedNone page792 annReplace1
      = ⟨792, [DrawOp.drawRectangle 5 6 70 8 ⟨1, 1, 1⟩ none,
               DrawOp.drawText "new" 30 40 14 Font.helvetica (parseColor "#000000")]⟩ :=
  (text_replace_mask_then_text embedNone page792 annReplace1 ⟨5, 6, 70, 8⟩ "new"
      rfl rfl rfl (by decide)).trans (by with_unfolding_all rfl)

/-- **C6 counterexample**: an annotation whose `page` is `0` refers to no
existing page, yet the engine does not silently drop it: the lookup
`pages[page - 1]` is out of bounds, `page.getSize()` throws, and the whole
mutation fails (`none`), while the same call without the annotation
succeeds.  This refutes the claim that *every* annotation referring to a
nonexistent page is dropped without error. -/
theorem engine_drops_skipped_ann_cex :
    modifyPdf embedNone [page792] [annPage0] [] = none
    ∧ modifyPdf embedNone [page792] [] [] = some [page792] := by
  constructor
  · with_unfolding_all rfl
  · with_unfolding_all rfl

/-- **C6** (corrected): for every annotation whose page is in the
deleted-page set or *exceeds the current page count*, the engine silently
drops that annotation — the run is the same as if the annotation were
absent — and all remaining annotations are still processed.  (An
annotation with `page < 1` is instead an error, see the counterexample and
C10.) -/
theorem engine_drops_deleted_or_overflow_ann (E : String → Option EmbeddedImage)
    (doc : List PageData) (ds : List ℕ) (pre post : List PdfAnn) (a : PdfAnn)
    (ha : a.page > (doc.length : ℤ) ∨ deletedHit ds (a.page - 1) = true) :
    modifyPdf E doc (pre ++ a :: post) ds = modifyPdf E doc (pre ++ post) ds := by
  unfold modifyPdf
  rw [applyAnns_skip_middle E ds a doc.length ha pre post doc rfl]

/-- Witness for `engine_drops_deleted_or_overflow_ann`: dropping the
page-5 annotation from a 1-page document leaves the run over the remaining
annotations unchanged. -/
theorem engine_drops_deleted_or_overflow_ann_witness :
    (annPage5.page > (([page792] : List PageData).length : ℤ)
      ∨ deletedHit [] (annPage5.page - 1) = true)
    ∧ modifyPdf embedNone [page792] ([] ++ annPage5 :: [annText100]) []
      = modifyPdf embedNone [page792] ([] ++ [annText100]) [] :=
  ⟨Or.inl (by decide),
   engine_drops_deleted_or_overflow_ann embedNone [page792] [] [] [annText100] annPage5
     (Or.inl (by decide))⟩

/-- **C10** (confirmed): the per-annotation guard only rejects a page
beyond the current page count or in the deleted set; for every annotation
with `page < 1` that the deleted set does not catch, the `pages[page - 1]`
lookup is out of bounds and the per-annotation step errors (`none`), so
the step is not total over all integer page values; conversely any `page`
between 1 and the page count makes the step succeed. -/
theorem ann_page_below_one_hits_oob :
    (∀ (E : String → Option EmbeddedImage) (pages : List PageData) (ds : List ℕ)
      (ann : PdfAnn), ann.page < 1 → deletedHit ds (ann.page - 1) = false →
      annStep E pages ds ann = none)
    ∧ (∀ (E : String → Option EmbeddedImage) (pages : List PageData) (ds : List ℕ)
      (ann : PdfAnn), 1 ≤ ann.page → ann.page ≤ (pages.length : ℤ) →
      (annStep E pages ds ann).isSome = true) :=
  ⟨fun E pages ds ann h1 h2 => annStep_oob E pages ds ann h1 h2,
   fun E pages ds ann h1 h2 => annStep_in_range E pages ds ann h1 h2⟩

/-- Witness for `ann_page_below_one_hits_oob`: the page-0 annotation
errors on a 1-page document; the page-1 annotation succeeds. -/
theorem ann_page_below_one_hits_oob_witness :
    (annPage0.page < 1 ∧ deletedHit [] (annPage0.page - 1) = false
      ∧ annStep embedNone [page792] [] annPage0 = none)
    ∧ (1 ≤ annText100.page ∧ annText100.page ≤ (([page792] : List PageData).length : ℤ)
      ∧ (annStep embedNone [page792] [] annText100).isSome = true) :=
  ⟨⟨by decide, by decide,
    ann_page_below_one_hits_oob.1 embedNone [page792] [] annPage0 (by decide) (by decide)⟩,
   ⟨by decide, by decide,
    ann_page_below_one_hits_oob.2 embedNone [page792] [] annText100 (by decide) (by decide)⟩⟩

/-! ## Claim theorems: Session Coordinator -/

/-- **C1 counterexample**: a client connecting to the freshly created
Coordinator receives exactly one message — the current `annotations` list
— and no `sync-deleted-pages` message at all (the `PDFSession` class keeps
no deleted-pages state), refuting the claim that `connect` also sends the
current `deletedPages` set. -/
theorem connect_sends_no_deleted_pages_cex :
    (handleWebSocket ⟨[], []⟩ 0).2 = [(0, WSMsg.syncAnnotations [])]
    ∧ ((handleWebSocket ⟨[], []⟩ 0).2.filter (fun p => isSyncDeletedPages p.2)) = [] :=
  ⟨rfl, rfl⟩

/-- **C1** (corrected): for every client that connects, the Coordinator
registers it and immediately sends it exactly one message: the full
current `annotations` list (even when empty); it never sends a
deleted-pages message on connect, having no such state. -/
theorem connect_sends_current_annotations_only (st : SessionState) (c : ℕ) :
    (handleWebSocket st c).2 = [(c, WSMsg.syncAnnotations st.annotations)]
    ∧ c ∈ (handleWebSocket st c).1.sessions
    ∧ ((handleWebSocket st c).2.filter (fun p => isSyncDeletedPages p.2)) = [] := by
  refine ⟨rfl, ?_, rfl⟩
  show c ∈ addClient st.sessions c
  unfold addClient
  by_cases h : c ∈ st.sessions
  · rw [if_pos h]; exact h
  · rw [if_neg h]; exact List.mem_append_right _ (List.mem_singleton.mpr rfl)

/-- **C7** (confirmed): when the extraction step or the inference step of
a summary job fails (throws), the job delivers to the requesting client an
`ai-result` message carrying the error string, over the same channel and
message kind as a success result, and leaves the session state — in
particular the connected-client set — untouched (no channel is closed,
and the job returns normally rather than failing at the protocol level). -/
theorem ai_failure_delivers_ai_result_error (st : SessionState) (req : ℕ)
    (bytes : PdfBytes) (extract : PdfBytes → Except String String)
    (aiRun : String → Except String String) (failing : ℕ → Bool)
    (h : (∃ e, extract bytes = Except.error e)
      ∨ (∃ t e, extract bytes = Except.ok t
          ∧ aiRun (truncateText t) = Except.error e)) :
    runAiSummary (some bytes) extract aiRun failing st req
      = (st, [(req, WSMsg.aiStatus "thinking"),
              (req, WSMsg.aiResult "Error processing document analysis.")]) := by
  rcases h with ⟨e, he⟩ | ⟨t, e, ht, he⟩
  · simp only [runAiSummary, he]
  · simp only [runAiSummary, ht, he]

/-- Witness for `ai_failure_delivers_ai_result_error`: a failing
extraction collaborator. -/
theorem ai_failure_delivers_ai_result_error_witness :
    (∃ e, (fun _ : PdfBytes => (Except.error "boom" : Except String String)) []
      = Except.error e)
    ∧ runAiSummary (some []) (fun _ => Except.error "boom")
        (fun s => Except.ok s) (fun _ => false) ⟨[7], []⟩ 7
      = (⟨[7], []⟩, [(7, WSMsg.aiStatus "thinking"),
                     (7, WSMsg.aiResult "Error processing document analysis.")]) :=
  ⟨⟨"boom", rfl⟩,
   ai_failure_delivers_ai_result_error ⟨[7], []⟩ 7 [] (fun _ => Except.error "boom")
     (fun s => Except.ok s) (fun _ => false) (Or.inl ⟨"boom", rfl⟩)⟩

/-- **C9** (confirmed): the broadcast loop removes every recipient whose
send fails from the connected-client set and still delivers to every other
non-source recipient — a single send failure never aborts the rest of the
broadcast. -/
theorem broadcast_tolerates_send_failure (failing : ℕ → Bool) (msg : WSMsg)
    (source : Option ℕ) (sessions : List ℕ) :
    (broadcast failing msg source sessions).1
      = sessions.filter (fun s => source == some s || !failing s)
    ∧ (broadcast failing msg source sessions).2
      = (sessions.filter (fun s => !(source == some s) && !failing s)).map
          (fun s => (s, msg)) := by
  rw [broadcast_spec]
  exact ⟨rfl, rfl⟩

theorem filter_pairs_no_deleted (msg : WSMsg) (h : isSyncDeletedPages msg = false) :
    ∀ l : List ℕ,
      ((l.map (fun s => (s, msg))).filter (fun p => isSyncDeletedPages p.2)) = [] := by
  intro l
  induction l with
  | nil => rfl
  | cons a l ih => simp [List.map_cons, List.filter_cons, h, ih]

theorem broadcast_nofail_deliveries (msg : WSMsg) (ws : ℕ) (sessions : List ℕ) :
    (broadcast (fun _ => false) msg (some ws) sessions).2
      = (sessions.filter (fun s => !(s == ws))).map (fun s => (s, msg)) := by
  rw [broadcast_spec]
  show List.map _ (sessions.filter fun s => !(some ws == some s) && !false) = _
  congr 1
  apply List.filter_congr
  intro a _
  by_cases h : a = ws
  · subst h; simp
  · show (!(some ws == some a) && !false) = !(a == ws)
    have h1 : (ws == a) = false := beq_eq_false_iff_ne.mpr (Ne.symm h)
    have h2 : (a == ws) = false := beq_eq_false_iff_ne.mpr h
    show (!(ws == a) && !false) = !(a == ws)
    rw [h1, h2]
    rfl

theorem broadcast_none_nofail_deliveries (msg : WSMsg) (sessions : List ℕ) :
    (broadcast (fun _ => false) msg none sessions).2
      = sessions.map (fun s => (s, msg)) := by
  rw [broadcast_spec]
  show List.map _ (sessions.filter fun s => !(none == some s) && !false) = _
  rw [List.filter_eq_self.mpr]
  intro a _
  rfl

/-- **C8** (confirmed): (1)–(2) a `sync-annotations` or `cursor-move`
broadcast is delivered to exactly the connected clients other than the
sender (echo suppression); (3)–(4) neither the message loop nor the AI job
ever delivers a `sync-deleted-pages` message, so the claim is vacuously
true for that kind (the Coordinator performs no such broadcast: the
message falls through its `switch`); (5) a successful summary's
`ai-result` reaches every connected client and the requestor as well.
Send failures are absent (`failing = fun _ => false`): fan-out under
failures is C9's concern. -/
theorem fanout_excludes_sender_except_ai_result :
    (∀ (st : SessionState) (ws : ℕ) (anns : List WireAnn),
      (webSocketMessage (fun _ => false) st ws (WSMsg.syncAnnotations anns)).2.1
        = (st.sessions.filter (fun s => !(s == ws))).map
            (fun s => (s, WSMsg.syncAnnotations anns)))
    ∧ (∀ (st : SessionState) (ws : ℕ) (x y pq : ℚ) (cid : String),
      (webSocketMessage (fun _ => false) st ws (WSMsg.cursorMove x y pq cid)).2.1
        = (st.sessions.filter (fun s => !(s == ws))).map
            (fun s => (s, WSMsg.cursorMove x y pq cid)))
    ∧ (∀ (failing : ℕ → Bool) (st : SessionState) (ws : ℕ) (m : WSMsg),
      ((webSocketMessage failing st ws m).2.1.filter
        (fun p => isSyncDeletedPages p.2)) = [])
    ∧ (∀ (g : Option PdfBytes) (ex : PdfBytes → Except String String)
        (ai : String → Except String String) (failing : ℕ → Bool)
        (st : SessionState) (req : ℕ),
      ((runAiSummary g ex ai failing st req).2.filter
        (fun p => isSyncDeletedPages p.2)) = [])
    ∧ (∀ (st : SessionState) (req : ℕ) (bytes : PdfBytes)
        (ex : PdfBytes → Except String String) (ai : String → Except String String)
        (t s : String), ex bytes = Except.ok t → ai (truncateText t) = Except.ok s →
      (∀ c ∈ st.sessions, (c, WSMsg.aiResult s)
        ∈ (runAiSummary (some bytes) ex ai (fun _ => false) st req).2)
      ∧ (req, WSMsg.aiResult s)
        ∈ (runAiSummary (some bytes) ex ai (fun _ => false) st req).2) := by
  refine ⟨?_, ?_, ?_, ?_, ?_⟩
  · intro st ws anns
    exact broadcast_nofail_deliveries (WSMsg.syncAnnotations anns) ws st.sessions
  · intro st ws x y pq cid
    exact broadcast_nofail_deliveries (WSMsg.cursorMove x y pq cid) ws st.sessions
  · intro failing st ws m
    cases m with
    | syncAnnotations anns =>
      show ((broadcast failing (WSMsg.syncAnnotations anns) (some ws) st.sessions).2.filter
        (fun p => isSyncDeletedPages p.2)) = []
      rw [broadcast_spec]
      exact filter_pairs_no_deleted (WSMsg.syncAnnotations anns) rfl _
    | cursorMove x y pq cid =>
      show ((broadcast failing (WSMsg.cursorMove x y pq cid) (some ws) st.sessions).2.filter
        (fun p => isSyncDeletedPages p.2)) = []
      rw [broadcast_spec]
      exact filter_pairs_no_deleted (WSMsg.cursorMove x y pq cid) rfl _
    | syncDeletedPages ds => rfl
    | aiSummarize => rfl
    | aiStatus s => rfl
    | aiResult s => rfl
  · intro g ex ai failing st req
    cases g with
    | none => rfl
    | some bytes =>
      cases hex : ex bytes with
      | error e => simp only [runAiSummary, hex]; rfl
      | ok t =>
        cases hai : ai (truncateText t) with
        | error e => simp only [runAiSummary, hex, hai]; rfl
        | ok s =>
          simp only [runAiSummary, hex, hai]
          rw [broadcast_spec]
          simp only [List.filter_cons, List.filter_append]
          rw [filter_pairs_no_deleted (WSMsg.aiResult s) rfl]
          rfl
  · intro st req bytes ex ai t s hex hai
    constructor
    · intro c hc
      simp only [runAiSummary, hex, hai, broadcast_none_nofail_deliveries]
      exact List.mem_cons_of_mem _
        (List.mem_append_left _ (List.mem_map_of_mem _ hc))
    · simp only [runAiSummary, hex, hai]
      exact List.mem_cons_of_mem _
        (List.mem_append_right _ (List.mem_singleton.mpr rfl))

/-- Witness for `fanout_excludes_sender_except_ai_result`: with clients
`[1, 2]` and sender `1`, a sync broadcast reaches exactly client `2`; with
clients `[3, 4]` and requestor `3`, the successful summary's `ai-result`
reaches both `3` and `4`. -/
theorem fanout_excludes_sender_except_ai_result_witness :
    (webSocketMessage (fun _ => false) ⟨[1, 2], []⟩ 1 (WSMsg.syncAnnotations [])).2.1
      = [(2, WSMsg.syncAnnotations [])]
    ∧ (3, WSMsg.aiResult "S") ∈ (runAiSummary (some []) (fun _ => Except.ok "T")
        (fun _ => Except.ok "S") (fun _ => false) ⟨[3, 4], []⟩ 3).2
    ∧ (4, WSMsg.aiResult "S") ∈ (runAiSummary (some []) (fun _ => Except.ok "T")
        (fun _ => Except.ok "S") (fun _ => false) ⟨[3, 4], []⟩ 3).2 := by
  refine ⟨?_, ?_, ?_⟩
  · rw [fanout_excludes_sender_except_ai_result.1 ⟨[1, 2], []⟩ 1 []]
    rfl
  · exact (fanout_excludes_sender_except_ai_result.2.2.2.2 ⟨[3, 4], []⟩ 3 []
      (fun _ => Except.ok "T") (fun _ => Except.ok "S") "T" "S" rfl rfl).2
  · exact (fanout_excludes_sender_except_ai_result.2.2.2.2 ⟨[3, 4], []⟩ 3 []
      (fun _ => Except.ok "T") (fun _ => Except.ok "S") "T" "S" rfl rfl).1 4 (by decide)
